import Mathlib

/-!
Shallow embedding of the record merge engine of `src/web/backend/data_loader.py`
(functions `load_and_clean_data`, here `load_and_merge` over explicit in-memory
sources, and `update_contact_status`), together with proofs about the claims of
the specification.

Modelling conventions:
* A pandas cell is `Option String` (`none` models NaN, which is what `read_csv`
  produces for an empty field).  Column presence is table-level: a `RawTable`
  carries one `has...` flag per optional column; the cell values of a column
  whose flag is `false` are never consulted.  `Business Name` and `Address` are
  the required columns and are always present (the `Address` cell itself may be
  NaN).
* `pd.concat` unions columns: a combined column exists when at least one source
  has it, and rows from sources lacking it hold NaN there.  Accessing a column
  that no source has raises `KeyError`; `load_and_merge` returns `Except.error`
  at exactly the accesses the Python code performs unprotected (lines 101-107
  and 128 of `data_loader.py`).
* `sort_values(['info_score','Business Name'], ascending=[False,True])` with
  several sort keys uses pandas' lexsort, which is stable; it is modelled by a
  stable insertion sort.
* Character classes follow the Python regexes on the lower-cased text: `\d` is
  `0-9`, `[a-z]` the lower-case letters, `\s` ASCII whitespace including
  form-feed and vertical tab.
* When a file whose name classifies it as spice (resp. oil) has both a
  `Spice Priority` (resp. `Oil Priority`) column and a `Priority` column,
  pandas' rename would produce duplicate labels; the model lets the renamed
  column take precedence.  No claim depends on that corner.
* File reading and CSV writing are out of scope: sources are given as values
  and `update_contact_status` returns the new durable state plus its flag.
-/

namespace Evergreen

/-! ### Character classes used by the Python regexes -/

/-- `[a-z]` of the regexes (the text is lower-cased first). -/
def isLowC (c : Char) : Bool := decide (97 ≤ c.toNat) && decide (c.toNat ≤ 122)

/-- `\d` of the regexes. -/
def isDigC (c : Char) : Bool := decide (48 ≤ c.toNat) && decide (c.toNat ≤ 57)

/-- Python `\s` / `str.strip` whitespace (ASCII part). -/
def isWSC (c : Char) : Bool :=
  c == ' ' || c == '\t' || c == '\n' || c == '\r' || c == '\x0b' || c == '\x0c'

/-! ### List-of-characters helpers -/

/-- Python `str.strip`. -/
def trimL (l : List Char) : List Char :=
  ((l.dropWhile isWSC).reverse.dropWhile isWSC).reverse

/-- `address.split(',')[0]`: the part before the first comma. -/
def beforeComma (l : List Char) : List Char := l.takeWhile (fun c => c != ',')

def dropD (l : List Char) : List Char := l.dropWhile isDigC
def dropL (l : List Char) : List Char := l.dropWhile isLowC
def dropW (l : List Char) : List Char := l.dropWhile isWSC

/-- Fuelled worker for `re.sub(r'\d+[a-z]*\s*', '', s)`: scanning left to
right, every maximal run of digits followed by letters and whitespace is
removed.  The fuel is at least the length of the list, so the first equation
is never reached. -/
def subNumTokF : Nat → List Char → List Char
  | 0, l => l
  | _ + 1, [] => []
  | n + 1, c :: cs =>
    if isDigC c then subNumTokF n (dropW (dropL (dropD cs)))
    else c :: subNumTokF n cs

/-- `re.sub(r'\d+[a-z]*\s*', '', s)` of `extract_street_name`. -/
def subNumTok (l : List Char) : List Char := subNumTokF l.length l

/-- Fuelled worker for stripping only the leading numeric tokens. -/
def dropLeadNumF : Nat → List Char → List Char
  | 0, l => l
  | _ + 1, [] => []
  | n + 1, c :: cs =>
    if isDigC c then dropLeadNumF n (dropW (dropL (dropD cs)))
    else c :: cs

/-- Strip leading numeric tokens (a digit run with attached letters and the
following whitespace, repeatedly).  Used by the specification-side street
fragment, for comparison with `subNumTok`. -/
def dropLeadNum (l : List Char) : List Char := dropLeadNumF l.length l

/-- Is `pat` the beginning of the list? -/
def leadsWith : List Char → List Char → Bool
  | [], _ => true
  | _ :: _, [] => false
  | p :: ps, c :: cs => p == c && leadsWith ps cs

/-- Python `pat in s` (substring test). -/
def hasSub (pat : List Char) : List Char → Bool
  | [] => leadsWith pat []
  | c :: cs => leadsWith pat (c :: cs) || hasSub pat cs

/-- Python `s.endswith(pat)`. -/
def trailsWith (pat l : List Char) : Bool := leadsWith pat.reverse l.reverse

/-! ### The two normalisers building the identity key -/

/-- The business suffixes stripped by `normalize_business_name`, in source
order. -/
def nameSuffixes : List (List Char) :=
  [" ltd".toList, " limited".toList, " restaurant".toList, " cafe".toList,
   " takeaway".toList, " kitchen".toList, " grill".toList]

/-- One iteration of the suffix loop:
`if text.endswith(suffix): text = text[:-len(suffix)].strip()`. -/
def stripStep (text suf : List Char) : List Char :=
  if trailsWith suf text then trimL (text.take (text.length - suf.length)) else text

/-- `normalize_business_name` of `data_loader.py` (lines 69-80): lower-case,
strip, drop the suffix list once each in order, keep only `[a-z0-9\s]`, then
remove all whitespace. -/
def normalize_business_name (text : String) : String :=
  let l := trimL (text.toList.map Char.toLower)
  let l := nameSuffixes.foldl stripStep l
  let l := l.filter (fun c => isLowC c || isDigC c || isWSC c)
  (l.filter (fun c => !isWSC c)).asString

/-- `extract_street_name` of `data_loader.py` (lines 82-93): `''` on NaN,
otherwise lower-case, part before the first comma, strip, remove
`\d+[a-z]*\s*` runs, keep only `[a-z\s]`, then remove all whitespace. -/
def extract_street_name (address : Option String) : String :=
  match address with
  | none => ""
  | some s =>
    let p := trimL (beforeComma (s.toList.map Char.toLower))
    (((subNumTok p).filter (fun c => isLowC c || isWSC c)).filter
      (fun c => !isWSC c)).asString

/-- The identity key (`dedupe_key` column): normalised name, `'_'`, street
fragment. -/
def dedupe_key (name : String) (address : Option String) : String :=
  normalize_business_name name ++ "_" ++ extract_street_name address

/-- The street fragment as the specification words it: the portion of the
address before the first comma, leading numeric tokens stripped, and only
alphabetic characters kept (on the lower-cased, stripped text, as for the
name fragment).  Defined independently of `extract_street_name` so the two
can be compared. -/
def spec_street_fragment (address : Option String) : String :=
  match address with
  | none => ""
  | some s =>
    let p := trimL (beforeComma (s.toList.map Char.toLower))
    ((dropLeadNum p).filter isLowC).asString

/-! ### Borough display name -/

/-- Python `str.title` on ASCII text: the first letter of each alphabetic run
is upper-cased, the rest lower-cased. -/
def titleAux : Bool → List Char → List Char
  | _, [] => []
  | prevAlpha, c :: cs =>
    (if c.isAlpha then (if prevAlpha then c.toLower else c.toUpper) else c)
      :: titleAux c.isAlpha cs

/-- `get_borough_from_path` (lines 19-36): underscores to spaces, title case,
with display overrides keyed on substrings of the folder name. -/
def get_borough_from_path (folder : String) : String :=
  let lower := folder.toList.map Char.toLower
  let borough_name :=
    (titleAux false (folder.toList.map fun c => if c == '_' then ' ' else c)).asString
  if hasSub "hammersmith".toList lower then "Hammersmith & Fulham"
  else if hasSub "richmond".toList lower then "Richmond upon Thames"
  else if hasSub "kingston".toList lower then "Kingston upon Thames"
  else borough_name

/-! ### Data model -/

/-- One CSV row as read by `read_csv`.  Cells are `Option String`
(`none` = NaN); `Contacted` cells are booleans in pandas once present.  A cell
is only meaningful when the owning table has the matching column flag. -/
structure RawRow where
  name : String
  address : Option String := none
  phone : Option String := none
  website : Option String := none
  email : Option String := none
  postcode : Option String := none
  spicePrio : Option String := none
  oilPrio : Option String := none
  prio : Option String := none
  contacted : Option Bool := none
  contactDate : Option String := none
  contactNotes : Option String := none
  borough : Option String := none
deriving Repr, DecidableEq

/-- One source CSV file: its name stem (spice/oil classification), its parent
folder (borough), which optional columns it has, and its rows. -/
structure RawTable where
  stem : String
  folder : String
  hasPhone : Bool := false
  hasWebsite : Bool := false
  hasEmail : Bool := false
  hasPostcode : Bool := false
  hasSpicePrio : Bool := false
  hasOilPrio : Bool := false
  hasPrio : Bool := false
  hasContacted : Bool := false
  hasContactDate : Bool := false
  hasContactNotes : Bool := false
  hasBorough : Bool := false
  rows : List RawRow
deriving Repr, DecidableEq

/-- A row after the per-source loop body (lines 42-57): `Lead Type` set,
priority column renamed/defaulted, borough filled in, absent columns now NaN
cells. -/
structure StdRow where
  name : String
  address : Option String
  phone : Option String
  website : Option String
  email : Option String
  postcode : Option String
  priority : Option String
  leadType : String
  borough : Option String
  contacted : Option Bool
  contactDate : Option String
  contactNotes : Option String
deriving Repr, DecidableEq

/-- A standardized source: which canonical columns it contributes to the
concatenated frame, and its rows. -/
structure StdTable where
  hasPhone : Bool
  hasWebsite : Bool
  hasEmail : Bool
  hasPostcode : Bool
  hasPriority : Bool
  hasContacted : Bool
  hasContactDate : Bool
  hasContactNotes : Bool
  rows : List StdRow
deriving Repr, DecidableEq

/-- Which canonical columns exist in the concatenated frame. -/
structure CombFlags where
  phone : Bool
  website : Bool
  email : Bool
  postcode : Bool
  priority : Bool
  contacted : Bool
  contactDate : Bool
  contactNotes : Bool
deriving Repr, DecidableEq

/-- One output record of `load_and_clean_data` (`to_dict('records')` after
NaN-to-None conversion). -/
structure Record where
  name : String
  address : Option String
  phone : Option String
  website : Option String
  email : Option String
  postcode : Option String
  priority : Option String
  leadType : String
  borough : Option String
  contacted : Option Bool
  contactDate : Option String
  contactNotes : Option String
deriving Repr, DecidableEq

/-! ### Per-source normalisation (lines 42-57) -/

/-- `'spice' in file.stem.lower()`. -/
def isSpiceStem (stem : String) : Bool :=
  hasSub "spice".toList (stem.toList.map Char.toLower)

/-- `'oil' in file.stem.lower()`. -/
def isOilStem (stem : String) : Bool :=
  hasSub "oil".toList (stem.toList.map Char.toLower)

/-- The loop body of lines 42-57 on one row.  Spice-named files rename
`Spice Priority` to `Priority`; oil-named files rename `Oil Priority`; other
files rename whichever of the two exists, and only they default a missing
`Priority` to `LOW`. -/
def stdRowOf (t : RawTable) (r : RawRow) : StdRow :=
  { name := r.name
    address := r.address
    phone := if t.hasPhone then r.phone else none
    website := if t.hasWebsite then r.website else none
    email := if t.hasEmail then r.email else none
    postcode := if t.hasPostcode then r.postcode else none
    priority :=
      if isSpiceStem t.stem then
        if t.hasSpicePrio then r.spicePrio else if t.hasPrio then r.prio else none
      else if isOilStem t.stem then
        if t.hasOilPrio then r.oilPrio else if t.hasPrio then r.prio else none
      else if t.hasSpicePrio then r.spicePrio
      else if t.hasOilPrio then r.oilPrio
      else if t.hasPrio then r.prio
      else some "LOW"
    leadType :=
      if isSpiceStem t.stem then "Spice"
      else if isOilStem t.stem then "Cooking Oil"
      else "General"
    borough := if t.hasBorough then r.borough else some (get_borough_from_path t.folder)
    contacted := if t.hasContacted then r.contacted else none
    contactDate := if t.hasContactDate then r.contactDate else none
    contactNotes := if t.hasContactNotes then r.contactNotes else none }

/-- Standardize one source. -/
def standardize (t : RawTable) : StdTable :=
  { hasPhone := t.hasPhone
    hasWebsite := t.hasWebsite
    hasEmail := t.hasEmail
    hasPostcode := t.hasPostcode
    hasPriority :=
      if isSpiceStem t.stem then t.hasSpicePrio || t.hasPrio
      else if isOilStem t.stem then t.hasOilPrio || t.hasPrio
      else true
    hasContacted := t.hasContacted
    hasContactDate := t.hasContactDate
    hasContactNotes := t.hasContactNotes
    rows := t.rows.map (stdRowOf t) }

/-- The priority-like columns the source's classification consults, in
precedence order, each as (column present, cell value): a spice-classified
source consults `Spice Priority` then `Priority`; an oil-classified source
`Oil Priority` then `Priority`; a general source `Spice Priority`, then
`Oil Priority`, then `Priority`.  A specification-side description of the
mapping, for comparison with `stdRowOf`. -/
def prioAliases (t : RawTable) (r : RawRow) : List (Bool × Option String) :=
  if isSpiceStem t.stem then
    [(t.hasSpicePrio, r.spicePrio), (t.hasPrio, r.prio)]
  else if isOilStem t.stem then
    [(t.hasOilPrio, r.oilPrio), (t.hasPrio, r.prio)]
  else
    [(t.hasSpicePrio, r.spicePrio), (t.hasOilPrio, r.oilPrio),
     (t.hasPrio, r.prio)]

/-- The canonical priority when no consulted column exists: `LOW` for a
general source, absent for a spice- or oil-classified one. -/
def prioDefault (t : RawTable) : Option String :=
  if isSpiceStem t.stem || isOilStem t.stem then none else some "LOW"

/-- The cell of the first available column in the alias list, else the
default. -/
def firstAvail : List (Bool × Option String) → Option String → Option String
  | [], d => d
  | (b, v) :: rest, d => if b then v else firstAvail rest d

/-- Columns of the concatenated frame (`pd.concat`, line 66). -/
def combFlags (stds : List StdTable) : CombFlags :=
  { phone := stds.any (·.hasPhone)
    website := stds.any (·.hasWebsite)
    email := stds.any (·.hasEmail)
    postcode := stds.any (·.hasPostcode)
    priority := stds.any (·.hasPriority)
    contacted := stds.any (·.hasContacted)
    contactDate := stds.any (·.hasContactDate)
    contactNotes := stds.any (·.hasContactNotes) }

/-- Rows of the concatenated frame, in source order. -/
def allRows (stds : List StdTable) : List StdRow := (stds.map (·.rows)).flatten

/-! ### Scoring, sorting, deduplication (lines 100-116) -/

/-- The `info_score` column (lines 101-107): presence of phone, website and
email, plus 2 for `HIGH` priority and 1 for `MEDIUM`. -/
def info_score (r : StdRow) : Nat :=
  (if r.phone.isSome then 1 else 0) + (if r.website.isSome then 1 else 0)
  + (if r.email.isSome then 1 else 0)
  + (if r.priority = some "HIGH" then 1 else 0) * 2
  + (if r.priority = some "MEDIUM" then 1 else 0)

/-- The score as the specification words it (a three-way conditional for the
priority contribution); compared with `info_score`. -/
def spec_score (r : StdRow) : Nat :=
  (if r.phone.isSome then 1 else 0) + (if r.website.isSome then 1 else 0)
  + (if r.email.isSome then 1 else 0)
  + (if r.priority = some "HIGH" then 2
     else if r.priority = some "MEDIUM" then 1 else 0)

/-- Lexicographic comparison of character lists by code point: exactly the
comparison Python applies to the `Business Name` strings. -/
def charListLe : List Char → List Char → Bool
  | [], _ => true
  | _ :: _, [] => false
  | c :: cs, d :: ds => if c = d then charListLe cs ds else decide (c < d)

/-- Python `s <= t` on strings (lexicographic by code point). -/
def strLeB (a b : String) : Bool := charListLe a.toList b.toList

/-- Sort order of line 110: `info_score` descending, then `Business Name`
ascending. -/
def sortRel (x y : StdRow) : Prop :=
  info_score y < info_score x ∨
    (info_score x = info_score y ∧ strLeB x.name y.name = true)

instance : DecidableRel sortRel := fun x y => by
  unfold sortRel; infer_instance

/-- The `dedupe_key` column of a combined row. -/
def fullKey (r : StdRow) : String := dedupe_key r.name r.address

/-- The `normalized_name` column of a combined row. -/
def nameKey (r : StdRow) : String := normalize_business_name r.name

/-- `drop_duplicates(subset=[k], keep='first')`: keep the first occurrence of
each key, tracked in `seen`. -/
def dedupBy {α : Type} (k : α → String) : List String → List α → List α
  | _, [] => []
  | seen, r :: rs =>
    if k r ∈ seen then dedupBy k seen rs
    else r :: dedupBy k (k r :: seen) rs

/-- Python `s.split()` first element: the first whitespace-delimited token,
`none` when there is none. -/
def firstToken (s : String) : Option String :=
  match dropW s.toList with
  | [] => none
  | c :: cs => some ((c :: cs.takeWhile (fun d => !isWSC d)).asString)

/-- Lines 118-131 on one surviving row: add contact-tracking defaults when the
combined frame lacks those columns, keep the postcode district, NaN to None. -/
def finalize (f : CombFlags) (r : StdRow) : Record :=
  { name := r.name
    address := r.address
    phone := r.phone
    website := r.website
    email := r.email
    postcode := r.postcode.bind firstToken
    priority := r.priority
    leadType := r.leadType
    borough := r.borough
    contacted := if f.contacted then r.contacted else some false
    contactDate := if f.contactDate then r.contactDate else some ""
    contactNotes := if f.contactNotes then r.contactNotes else some "" }

/-- Sort, the two dedup passes, and the per-row finalisation. -/
def mergePipeline (f : CombFlags) (rows : List StdRow) : List Record :=
  (dedupBy nameKey [] (dedupBy fullKey [] (List.insertionSort sortRel rows))).map
    (finalize f)

/-- `load_and_clean_data` over explicit sources (lines 7-133).  The unguarded
column accesses of lines 101-107 and 128 surface as `Except.error` when no
source contributes the column. -/
def load_and_merge (tables : List RawTable) : Except String (List Record) :=
  if tables.isEmpty then Except.ok []
  else if (combFlags (tables.map standardize)).phone = false then
    Except.error "KeyError: Phone"
  else if (combFlags (tables.map standardize)).website = false then
    Except.error "KeyError: Website"
  else if (combFlags (tables.map standardize)).email = false then
    Except.error "KeyError: Email"
  else if (combFlags (tables.map standardize)).priority = false then
    Except.error "KeyError: Priority"
  else if (combFlags (tables.map standardize)).postcode = false then
    Except.error "KeyError: Postcode"
  else
    Except.ok (mergePipeline (combFlags (tables.map standardize))
      (allRows (tables.map standardize)))

/-! ### `update_contact_status` (lines 136-180) -/

/-- `df['Business Name'] == business_name` on one row. -/
def rowMatch (n : String) (r : RawRow) : Bool := r.name == n

/-- `business_mask.any()` for one file. -/
def tableMatches (n : String) (t : RawTable) : Bool := t.rows.any (rowMatch n)

/-- Lines 157-168 on one row of a matching file: contact columns are first
added with defaults when absent, then every matching row is overwritten. -/
def updateRowCS (n : String) (c : Bool) (date notes : String)
    (hasC hasD hasN : Bool) (r : RawRow) : RawRow :=
  let r1 := { r with
    contacted := if hasC then r.contacted else some false
    contactDate := if hasD then r.contactDate else some ""
    contactNotes := if hasN then r.contactNotes else some "" }
  if rowMatch n r then
    { r1 with contacted := some c, contactDate := some date, contactNotes := some notes }
  else r1

/-- One file of the loop of lines 150-178: files with no matching row are
left untouched (not even rewritten); matching files gain the contact columns
and the update. -/
def updateTableCS (n : String) (c : Bool) (date notes : String) (t : RawTable) :
    RawTable :=
  if tableMatches n t then
    { t with
      hasContacted := true
      hasContactDate := true
      hasContactNotes := true
      rows := t.rows.map
        (updateRowCS n c date notes t.hasContacted t.hasContactDate t.hasContactNotes) }
  else t

/-- `update_contact_status` (lines 136-180): the current date stands in as the
`today` argument; the boolean result is `business_updated`.  The first
component is the new durable state of every source file. -/
def update_contact_status (business_name : String) (contacted : Bool)
    (contact_notes : Option String) (today : String) (tables : List RawTable) :
    List RawTable × Bool :=
  let date := if contacted then today else ""
  let notes := contact_notes.getD ""
  (tables.map (updateTableCS business_name contacted date notes),
   tables.any (tableMatches business_name))

/-! ### A two-row collision gadget (for the winner-selection claim) -/

/-- A source carrying every optional column, classified general, holding two
given rows.  Used to state which of two colliding rows survives the merge. -/
def allCols (a b : RawRow) : RawTable :=
  { stem := "all_businesses_x"
    folder := "camden"
    hasPhone := true
    hasWebsite := true
    hasEmail := true
    hasPostcode := true
    hasSpicePrio := false
    hasOilPrio := false
    hasPrio := true
    hasContacted := true
    hasContactDate := true
    hasContactNotes := true
    hasBorough := true
    rows := [a, b] }

/-- The combined-frame row arising from a row of `allCols`. -/
def c2comb (r : RawRow) : StdRow :=
  { name := r.name
    address := r.address
    phone := r.phone
    website := r.website
    email := r.email
    postcode := r.postcode
    priority := r.prio
    leadType := "General"
    borough := r.borough
    contacted := r.contacted
    contactDate := r.contactDate
    contactNotes := r.contactNotes }

/-- The output record produced when a row of `allCols` survives the merge. -/
def c2merged (r : RawRow) : Record :=
  { name := r.name
    address := r.address
    phone := r.phone
    website := r.website
    email := r.email
    postcode := r.postcode.bind firstToken
    priority := r.prio
    leadType := "General"
    borough := r.borough
    contacted := r.contacted
    contactDate := r.contactDate
    contactNotes := r.contactNotes }

/-- The combined-column flags when every column is present. -/
def allFlags : CombFlags :=
  { phone := true
    website := true
    email := true
    postcode := true
    priority := true
    contacted := true
    contactDate := true
    contactNotes := true }

/-! ### Concrete sources for counterexamples and witnesses -/

/-- A source with only the required columns. -/
def cexBare : RawTable :=
  { stem := "alpha_businesses_1", folder := "hackney", rows := [{ name := "aaa" }] }

/-- A spice-classified source with no priority-like column. -/
def cexSpice : RawTable :=
  { stem := "south_spice_businesses_1", folder := "hackney"
    rows := [{ name := "aaa spicehouse" }] }

/-- A spice-classified source whose only priority-like column is
`Oil Priority`. -/
def cexSpiceOil : RawTable :=
  { stem := "south_spice_businesses_2", folder := "hackney"
    hasOilPrio := true, rows := [{ name := "ccc", oilPrio := some "HIGH" }] }

/-- A general source carrying the scored optional columns (cells NaN). -/
def cexGen : RawTable :=
  { stem := "alpha_businesses_1", folder := "hackney", hasPhone := true
    hasWebsite := true, hasEmail := true, hasPostcode := true
    rows := [{ name := "bbb" }] }

/-- A source that has a `Contacted` column (and the scored columns). -/
def cexCon : RawTable :=
  { stem := "alpha_businesses_1", folder := "hackney", hasPhone := true
    hasWebsite := true, hasEmail := true, hasPostcode := true
    hasContacted := true, rows := [{ name := "bbb", contacted := some true }] }

/-- A source with no contact-tracking columns. -/
def cexNoCon : RawTable :=
  { stem := "beta_businesses_1", folder := "hackney", rows := [{ name := "aaa" }] }

/-- Two rows that collide on the identity key, with different scores. -/
def w2a : RawRow :=
  { name := "Spice Garden Ltd", address := some "12 High Street, London"
    phone := some "020 1234", prio := some "HIGH" }

def w2b : RawRow :=
  { name := "Spice Garden", address := some "12a High Street, London" }

/-- A one-row source holding previously recorded contact notes. -/
def w4 : RawTable :=
  { stem := "alpha_businesses_1", folder := "hackney"
    hasContactDate := true, hasContactNotes := true
    rows := [{ name := "Spice Hut", contactDate := some "2020-01-01"
               contactNotes := some "old notes" }] }

/-- The first output record of `load_and_merge [cexCon, cexNoCon]`. -/
def c7recA : Record :=
  { name := "aaa", address := none, phone := none, website := none
    email := none, postcode := none, priority := some "LOW"
    leadType := "General", borough := some "Hackney", contacted := none
    contactDate := some "", contactNotes := some "" }

/-- The second output record of `load_and_merge [cexCon, cexNoCon]`. -/
def c7recB : Record :=
  { name := "bbb", address := none, phone := none, website := none
    email := none, postcode := none, priority := some "LOW"
    leadType := "General", borough := some "Hackney", contacted := some true
    contactDate := some "", contactNotes := some "" }

/-- The output of `load_and_merge [cexCon, cexNoCon]`. -/
def c7L : List Record := [c7recA, c7recB]

/-! ## Helper lemmas -/

theorem length_dropWhile_le (p : α → Bool) (l : List α) :
    (l.dropWhile p).length ≤ l.length := by
  induction l with
  | nil => simp
  | cons a l ih =>
    rw [List.dropWhile_cons]
    split
    · exact Nat.le_trans ih (Nat.le_succ _)
    · simp

theorem dropD_len (l : List Char) : (dropD l).length ≤ l.length :=
  length_dropWhile_le _ l

theorem dropChain_len (cs : List Char) :
    (dropW (dropL (dropD cs))).length ≤ cs.length :=
  Nat.le_trans (length_dropWhile_le _ _)
    (Nat.le_trans (length_dropWhile_le _ _) (length_dropWhile_le _ _))

theorem subNumTokF_congr :
    ∀ n m (l : List Char), l.length ≤ n → l.length ≤ m →
      subNumTokF n l = subNumTokF m l := by
  intro n
  induction n with
  | zero =>
    intro m l hn _
    have : l = [] := List.eq_nil_of_length_eq_zero (Nat.le_zero.mp hn)
    subst this
    cases m <;> rfl
  | succ n ih =>
    intro m l hn hm
    cases l with
    | nil => cases m <;> rfl
    | cons c cs =>
      cases m with
      | zero => simp at hm
      | succ m =>
        simp only [subNumTokF]
        split
        · exact ih m _ (Nat.le_trans (dropChain_len cs) (Nat.le_of_succ_le_succ hn))
            (Nat.le_trans (dropChain_len cs) (Nat.le_of_succ_le_succ hm))
        · rw [ih m cs (Nat.le_of_succ_le_succ hn) (Nat.le_of_succ_le_succ hm)]

theorem subNumTok_nil : subNumTok [] = [] := rfl

theorem subNumTok_cons_digit {c : Char} (cs : List Char) (h : isDigC c = true) :
    subNumTok (c :: cs) = subNumTok (dropW (dropL (dropD cs))) := by
  show subNumTokF (cs.length + 1) (c :: cs) = _
  simp only [subNumTokF, h, if_pos]
  exact subNumTokF_congr _ _ _ (dropChain_len cs) (Nat.le_refl _)

theorem subNumTok_cons_nondigit {c : Char} (cs : List Char) (h : isDigC c = false) :
    subNumTok (c :: cs) = c :: subNumTok cs := by
  show subNumTokF (cs.length + 1) (c :: cs) = _
  simp only [subNumTokF, h]
  rfl

theorem dropLeadNumF_congr :
    ∀ n m (l : List Char), l.length ≤ n → l.length ≤ m →
      dropLeadNumF n l = dropLeadNumF m l := by
  intro n
  induction n with
  | zero =>
    intro m l hn _
    have : l = [] := List.eq_nil_of_length_eq_zero (Nat.le_zero.mp hn)
    subst this
    cases m <;> rfl
  | succ n ih =>
    intro m l hn hm
    cases l with
    | nil => cases m <;> rfl
    | cons c cs =>
      cases m with
      | zero => simp at hm
      | succ m =>
        simp only [dropLeadNumF]
        split
        · exact ih m _ (Nat.le_trans (dropChain_len cs) (Nat.le_of_succ_le_succ hn))
            (Nat.le_trans (dropChain_len cs) (Nat.le_of_succ_le_succ hm))
        · rfl

theorem dropLeadNum_cons_digit {c : Char} (cs : List Char) (h : isDigC c = true) :
    dropLeadNum (c :: cs) = dropLeadNum (dropW (dropL (dropD cs))) := by
  show dropLeadNumF (cs.length + 1) (c :: cs) = _
  simp only [dropLeadNumF, h, if_pos]
  exact dropLeadNumF_congr _ _ _ (dropChain_len cs) (Nat.le_refl _)

theorem dropLeadNum_cons_nondigit {c : Char} (cs : List Char) (h : isDigC c = false) :
    dropLeadNum (c :: cs) = c :: cs := by
  show dropLeadNumF (cs.length + 1) (c :: cs) = _
  simp only [dropLeadNumF, h]
  rfl

/-- `subNumTok` is the identity on digit-free text. -/
theorem subNumTok_of_no_digit :
    ∀ l : List Char, (∀ c ∈ l, isDigC c = false) → subNumTok l = l := by
  intro l
  induction l with
  | nil => intro _; rfl
  | cons c cs ih =>
    intro h
    rw [subNumTok_cons_nondigit cs (h c (List.mem_cons_self c cs))]
    rw [ih fun d hd => h d (List.mem_cons_of_mem c hd)]

/-- `subNumTok` first does exactly what stripping the leading numeric tokens
does. -/
theorem subNumTok_dropLeadNum :
    ∀ n (l : List Char), l.length ≤ n → subNumTok l = subNumTok (dropLeadNum l) := by
  intro n
  induction n with
  | zero =>
    intro l hn
    have : l = [] := List.eq_nil_of_length_eq_zero (Nat.le_zero.mp hn)
    subst this; rfl
  | succ n ih =>
    intro l hn
    cases l with
    | nil => rfl
    | cons c cs =>
      by_cases h : isDigC c = true
      · rw [subNumTok_cons_digit cs h, dropLeadNum_cons_digit cs h]
        exact ih _ (Nat.le_trans (dropChain_len cs) (Nat.le_of_succ_le_succ hn))
      · rw [dropLeadNum_cons_nondigit cs (Bool.eq_false_iff.mpr h)]

/-! ### Character facts -/

theorem toLower_of_ge_91 {c : Char} (h : 91 ≤ c.toNat) : c.toLower = c := by
  unfold Char.toLower
  rw [if_neg]
  omega

theorem toLower_of_le_64 {c : Char} (h : c.toNat ≤ 64) : c.toLower = c := by
  unfold Char.toLower
  rw [if_neg]
  omega

theorem isLowC_iff {c : Char} : isLowC c = true ↔ 97 ≤ c.toNat ∧ c.toNat ≤ 122 := by
  simp [isLowC]

theorem isDigC_iff {c : Char} : isDigC c = true ↔ 48 ≤ c.toNat ∧ c.toNat ≤ 57 := by
  simp [isDigC]

theorem isWSC_iff {c : Char} :
    isWSC c = true ↔
      c = ' ' ∨ c = '\t' ∨ c = '\n' ∨ c = '\r' ∨ c = '\x0b' ∨ c = '\x0c' := by
  simp [isWSC, or_assoc]

theorem isWSC_toNat {c : Char} (h : isWSC c = true) : c.toNat ≤ 32 := by
  rcases isWSC_iff.mp h with h | h | h | h | h | h <;> subst h <;> decide

theorem isLowC_toLower {c : Char} (h : isLowC c = true) : c.toLower = c :=
  toLower_of_ge_91 (by have := isLowC_iff.mp h; omega)

theorem isDigC_toLower {c : Char} (h : isDigC c = true) : c.toLower = c :=
  toLower_of_le_64 (by have := isDigC_iff.mp h; omega)

theorem isLowC_not_WS {c : Char} (h : isLowC c = true) : isWSC c = false := by
  rcases Bool.eq_false_or_eq_true (isWSC c) with hw | hw
  · have h1 := isLowC_iff.mp h
    have h2 := isWSC_toNat hw
    omega
  · exact hw

theorem isDigC_not_WS {c : Char} (h : isDigC c = true) : isWSC c = false := by
  rcases Bool.eq_false_or_eq_true (isWSC c) with hw | hw
  · have h1 := isDigC_iff.mp h
    have h2 := isWSC_toNat hw
    omega
  · exact hw

theorem isLowC_not_digit {c : Char} (h : isLowC c = true) : isDigC c = false := by
  rcases Bool.eq_false_or_eq_true (isDigC c) with hw | hw
  · have h1 := isLowC_iff.mp h
    have h2 := isDigC_iff.mp hw
    omega
  · exact hw

theorem isLowC_ne_comma {c : Char} (h : isLowC c = true) : (c != ',') = true := by
  have h1 := isLowC_iff.mp h
  have : c ≠ ',' := by
    intro he
    subst he
    simp at h1
  simpa using this

theorem isLowC_ne_underscore {c : Char} (h : isLowC c = true) : c ≠ '_' := by
  have h1 := isLowC_iff.mp h
  intro he
  subst he
  simp at h1

/-! ### Identity lemmas for the string pipeline stages -/

theorem dropWhile_of_false {p : α → Bool} {l : List α}
    (h : ∀ c ∈ l, p c = false) : l.dropWhile p = l := by
  cases l with
  | nil => rfl
  | cons a l =>
    rw [List.dropWhile_cons, if_neg]
    simp [h a (List.mem_cons_self a l)]

theorem takeWhile_of_true {p : α → Bool} {l : List α}
    (h : ∀ c ∈ l, p c = true) : l.takeWhile p = l := by
  induction l with
  | nil => rfl
  | cons a l ih =>
    rw [List.takeWhile_cons, if_pos (h a (List.mem_cons_self a l))]
    rw [ih fun c hc => h c (List.mem_cons_of_mem a hc)]

theorem trimL_of_no_WS {l : List Char} (h : ∀ c ∈ l, isWSC c = false) :
    trimL l = l := by
  unfold trimL
  rw [dropWhile_of_false h, dropWhile_of_false, List.reverse_reverse]
  intro c hc
  exact h c (List.mem_reverse.mp hc)

theorem leadsWith_mem :
    ∀ pat l : List Char, leadsWith pat l = true → ∀ c ∈ pat, c ∈ l := by
  intro pat
  induction pat with
  | nil => intro l _ c hc; simp at hc
  | cons p ps ih =>
    intro l h c hc
    cases l with
    | nil => simp [leadsWith] at h
    | cons a as =>
      simp only [leadsWith, Bool.and_eq_true, beq_iff_eq] at h
      rcases List.mem_cons.mp hc with hc | hc
      · subst hc
        rw [h.1]
        exact List.mem_cons_self a as
      · exact List.mem_cons_of_mem a (ih as h.2 c hc)

theorem trailsWith_mem {pat l : List Char} (h : trailsWith pat l = true) :
    ∀ c ∈ pat, c ∈ l := by
  intro c hc
  have := leadsWith_mem pat.reverse l.reverse h c (List.mem_reverse.mpr hc)
  exact List.mem_reverse.mp this

theorem stripStep_of_no_WS {l suf : List Char} (hl : ∀ c ∈ l, isWSC c = false)
    (hs : ' ' ∈ suf) : stripStep l suf = l := by
  unfold stripStep
  rw [if_neg]
  intro h
  have := hl ' ' (trailsWith_mem h ' ' hs)
  simp [isWSC] at this

theorem toList_asString (l : List Char) : l.asString.toList = l := rfl

theorem asString_toList (s : String) : s.toList.asString = s := by
  cases s
  rfl

/-! ### `dedupBy` facts -/

theorem dedupBy_sublist {α : Type} (k : α → String) :
    ∀ (seen : List String) (l : List α), List.Sublist (dedupBy k seen l) l := by
  intro seen l
  induction l generalizing seen with
  | nil => simp [dedupBy]
  | cons r rs ih =>
    rw [dedupBy]
    split
    · exact (ih seen).trans (List.sublist_cons_self r rs)
    · exact (ih _).cons₂ r

theorem dedupBy_fresh {α : Type} (k : α → String) :
    ∀ (seen : List String) (l : List α) (r : α),
      r ∈ dedupBy k seen l → k r ∉ seen := by
  intro seen l
  induction l generalizing seen with
  | nil => intro r h; simp [dedupBy] at h
  | cons a rs ih =>
    intro r h
    rw [dedupBy] at h
    split at h
    · exact ih seen r h
    · rcases List.mem_cons.mp h with h | h
      · subst h
        assumption
      · intro hmem
        exact ih _ r h (List.mem_cons_of_mem _ hmem)

theorem dedupBy_pairwise {α : Type} (k : α → String) :
    ∀ (seen : List String) (l : List α),
      (dedupBy k seen l).Pairwise (fun a b => k a ≠ k b) := by
  intro seen l
  induction l generalizing seen with
  | nil => simp [dedupBy]
  | cons a rs ih =>
    rw [dedupBy]
    split
    · exact ih seen
    · refine List.Pairwise.cons ?_ (ih _)
      intro b hb he
      exact dedupBy_fresh k _ _ b hb (he ▸ List.mem_cons_self _ _)

/-! ### Character content of the two normalisers -/

theorem mem_normalize_chars {s : String} {c : Char}
    (h : c ∈ (normalize_business_name s).toList) :
    (isLowC c || isDigC c) = true ∧ isWSC c = false := by
  simp only [normalize_business_name, toList_asString] at h
  have h2 := (List.mem_filter.mp h).2
  have h1 := (List.mem_filter.mp (List.mem_filter.mp h).1).2
  simp only [Bool.not_eq_true'] at h2
  refine ⟨?_, h2⟩
  simp only [Bool.or_eq_true] at h1 ⊢
  rcases h1 with (h1 | h1) | h1
  · exact Or.inl h1
  · exact Or.inr h1
  · rw [h1] at h2
    exact absurd h2 (by decide)

theorem mem_extract_chars {a : Option String} {c : Char}
    (h : c ∈ (extract_street_name a).toList) : isLowC c = true := by
  cases a with
  | none => simp [extract_street_name] at h
  | some s =>
    simp only [extract_street_name, toList_asString] at h
    have h2 := (List.mem_filter.mp h).2
    have h1 := (List.mem_filter.mp (List.mem_filter.mp h).1).2
    simp only [Bool.not_eq_true'] at h2
    rcases Bool.or_eq_true_iff.mp h1 with h1 | h1
    · exact h1
    · rw [h1] at h2
      exact absurd h2 (by decide)

/-- The suffix loop does nothing on whitespace-free text. -/
theorem foldl_stripStep_of_no_WS {l : List Char} (h : ∀ c ∈ l, isWSC c = false) :
    ∀ sufs : List (List Char), (∀ suf ∈ sufs, ' ' ∈ suf) →
      sufs.foldl stripStep l = l := by
  intro sufs
  induction sufs with
  | nil => intro _; rfl
  | cons suf sufs ih =>
    intro hs
    rw [List.foldl_cons, stripStep_of_no_WS h (hs suf (List.mem_cons_self suf sufs))]
    exact ih fun u hu => hs u (List.mem_cons_of_mem suf hu)

theorem map_toLower_fix {l : List Char}
    (h : ∀ c ∈ l, (isLowC c || isDigC c) = true) : l.map Char.toLower = l := by
  rw [List.map_congr_left (g := id), List.map_id]
  intro c hc
  rcases Bool.or_eq_true_iff.mp (h c hc) with h1 | h1
  · exact isLowC_toLower h1
  · exact isDigC_toLower h1

/-! ## Claim C8 and C9: the identity-key normalisers -/

/-- C8: for every address, the street fragment used in the identity key is
the part of the address before the first comma with leading numeric tokens
stripped and only alphabetic characters kept: the fragment always consists of
alphabetic characters only, and whenever the before-comma part has no numeric
content outside its leading numeric tokens (the one situation the claim
leaves unspecified), the code fragment coincides with the fragment computed
exactly as the claim words it. -/
theorem C8_street_fragment (s : String) :
    (∀ c ∈ (extract_street_name (some s)).toList, isLowC c = true) ∧
    ((∀ c ∈ dropLeadNum (trimL (beforeComma (s.toList.map Char.toLower))),
        isDigC c = false) →
      extract_street_name (some s) = spec_street_fragment (some s)) := by
  constructor
  · intro c hc
    exact mem_extract_chars hc
  · intro h
    set p := trimL (beforeComma (s.toList.map Char.toLower)) with hp
    have key : subNumTok p = dropLeadNum p :=
      (subNumTok_dropLeadNum p.length p (Nat.le_refl _)).trans
        (subNumTok_of_no_digit _ h)
    have hBA : ∀ c, ((!isWSC c) && (isLowC c || isWSC c)) = isLowC c := by
      intro c
      rcases Bool.eq_false_or_eq_true (isLowC c) with hl | hl
      · have hw := isLowC_not_WS hl
        simp [hl, hw]
      · cases hw : isWSC c <;> simp [hl, hw]
    show (((subNumTok p).filter fun c => isLowC c || isWSC c).filter
        fun c => !isWSC c).asString = ((dropLeadNum p).filter isLowC).asString
    rw [key, List.filter_filter, List.filter_congr fun c _ => hBA c]

/-- C9: both normalisers are no-ops on their own output: normalising an
already-normalised business name, or extracting the street fragment of an
already-extracted fragment, changes nothing. -/
theorem C9_normalization_idem :
    (∀ s : String,
      normalize_business_name (normalize_business_name s) =
        normalize_business_name s) ∧
    (∀ a : Option String,
      extract_street_name (some (extract_street_name a)) =
        extract_street_name a) := by
  constructor
  · intro s
    have hch := fun c hc => mem_normalize_chars (s := s) (c := c) hc
    have hlow : ∀ c ∈ (normalize_business_name s).toList,
        (isLowC c || isDigC c) = true := fun c hc => (hch c hc).1
    have hws : ∀ c ∈ (normalize_business_name s).toList, isWSC c = false :=
      fun c hc => (hch c hc).2
    have h1 : (normalize_business_name s).toList.map Char.toLower =
        (normalize_business_name s).toList := map_toLower_fix hlow
    have h2 : trimL (normalize_business_name s).toList =
        (normalize_business_name s).toList := trimL_of_no_WS hws
    have h3 : nameSuffixes.foldl stripStep (normalize_business_name s).toList =
        (normalize_business_name s).toList :=
      foldl_stripStep_of_no_WS hws nameSuffixes (by decide)
    have h4 : (normalize_business_name s).toList.filter
        (fun c => isLowC c || isDigC c || isWSC c) =
        (normalize_business_name s).toList := by
      refine List.filter_eq_self.mpr fun c hc => ?_
      rcases Bool.or_eq_true_iff.mp (hlow c hc) with h | h <;> simp [h]
    have h5 : (normalize_business_name s).toList.filter (fun c => !isWSC c) =
        (normalize_business_name s).toList := by
      refine List.filter_eq_self.mpr fun c hc => ?_
      simp [hws c hc]
    calc normalize_business_name (normalize_business_name s)
        = (((nameSuffixes.foldl stripStep
              (trimL ((normalize_business_name s).toList.map Char.toLower))).filter
                (fun c => isLowC c || isDigC c || isWSC c)).filter
                  (fun c => !isWSC c)).asString := rfl
      _ = (normalize_business_name s).toList.asString := by rw [h1, h2, h3, h4, h5]
      _ = normalize_business_name s := asString_toList _
  · intro a
    cases a with
    | none => rfl
    | some s =>
      have hch := fun c hc => mem_extract_chars (a := some s) (c := c) hc
      have h1 : (extract_street_name (some s)).toList.map Char.toLower =
          (extract_street_name (some s)).toList :=
        map_toLower_fix fun c hc => Bool.or_eq_true_iff.mpr (Or.inl (hch c hc))
      have hws : ∀ c ∈ (extract_street_name (some s)).toList, isWSC c = false :=
        fun c hc => isLowC_not_WS (hch c hc)
      have h2 : beforeComma (extract_street_name (some s)).toList =
          (extract_street_name (some s)).toList :=
        takeWhile_of_true fun c hc => isLowC_ne_comma (hch c hc)
      have h3 : trimL (extract_street_name (some s)).toList =
          (extract_street_name (some s)).toList := trimL_of_no_WS hws
      have h4 : subNumTok (extract_street_name (some s)).toList =
          (extract_street_name (some s)).toList :=
        subNumTok_of_no_digit _ fun c hc => isLowC_not_digit (hch c hc)
      have h5 : (extract_street_name (some s)).toList.filter
          (fun c => isLowC c || isWSC c) = (extract_street_name (some s)).toList := by
        refine List.filter_eq_self.mpr fun c hc => ?_
        simp [hch c hc]
      have h6 : (extract_street_name (some s)).toList.filter (fun c => !isWSC c) =
          (extract_street_name (some s)).toList := by
        refine List.filter_eq_self.mpr fun c hc => ?_
        simp [hws c hc]
      calc extract_street_name (some (extract_street_name (some s)))
          = (((subNumTok (trimL (beforeComma
                ((extract_street_name (some s)).toList.map Char.toLower)))).filter
                  (fun c => isLowC c || isWSC c)).filter (fun c => !isWSC c)).asString :=
            rfl
        _ = (extract_street_name (some s)).toList.asString := by
            rw [h1, h2, h3, h4, h5, h6]
        _ = extract_street_name (some s) := asString_toList _

/-- Witness for C8 at a concrete address with a leading house-number token. -/
theorem C8_street_fragment_witness :
    extract_street_name (some "12a High Street, London") =
      spec_street_fragment (some "12a High Street, London") :=
  (C8_street_fragment "12a High Street, London").2 (by decide)

/-! ## Claim C3: the completeness/priority score -/

/-- C3: the score used for collision resolution equals one point each for a
present phone, website and email, plus 2 for `HIGH` priority, 1 for `MEDIUM`
and 0 otherwise. -/
theorem C3_info_score_formula (r : StdRow) : info_score r = spec_score r := by
  unfold info_score spec_score
  by_cases h1 : r.priority = some "HIGH"
  · have h2 : ¬r.priority = some "MEDIUM" := by rw [h1]; decide
    simp only [if_pos h1, if_neg h2]
  · by_cases h2 : r.priority = some "MEDIUM"
    · simp only [if_neg h1, if_pos h2]
    · simp only [if_neg h1, if_neg h2]

/-! ## Claim C6 (amended): per-source priority normalisation -/

/-- C6 amended: the per-source normalisation maps a priority-like column to
the canonical priority field only according to the source's classification:
every row's canonical priority is the cell of the first column its
classification consults (spice: `Spice Priority` then `Priority`; oil:
`Oil Priority` then `Priority`; general: `Spice Priority`, `Oil Priority`,
`Priority`), with the default — `LOW` for general sources, absent for spice-
or oil-classified ones — when none of the consulted columns exists; a
`Priority` column is present on the standardized source exactly unless the
source is spice- or oil-classified with no consulted column; and in the
no-priority-like-column case only general sources default to `LOW`, while
spice/oil sources keep the priority absent. -/
theorem C6_priority_mapping (t : RawTable) (r : RawRow) :
    (stdRowOf t r).priority = firstAvail (prioAliases t r) (prioDefault t) ∧
    ((standardize t).hasPriority = false ↔
      (isSpiceStem t.stem = true ∨ isOilStem t.stem = true) ∧
      (prioAliases t r).all (fun p => !p.1) = true) ∧
    ((isSpiceStem t.stem = false ∧ isOilStem t.stem = false) →
      t.hasSpicePrio = false → t.hasOilPrio = false → t.hasPrio = false →
      (stdRowOf t r).priority = some "LOW") ∧
    ((isSpiceStem t.stem = true ∨ isOilStem t.stem = true) →
      t.hasSpicePrio = false → t.hasOilPrio = false → t.hasPrio = false →
      (stdRowOf t r).priority = none) := by
  have h1 : (stdRowOf t r).priority =
      firstAvail (prioAliases t r) (prioDefault t) := by
    by_cases hsp : isSpiceStem t.stem
    · simp [stdRowOf, prioAliases, prioDefault, firstAvail, hsp]
    · by_cases hop : isOilStem t.stem
      · simp [stdRowOf, prioAliases, prioDefault, firstAvail, hsp, hop]
      · simp [stdRowOf, prioAliases, prioDefault, firstAvail, hsp, hop]
  refine ⟨h1, ?_, ?_, ?_⟩
  · by_cases hsp : isSpiceStem t.stem
    · simp [standardize, prioAliases, hsp, List.all_cons]
    · by_cases hop : isOilStem t.stem
      · simp [standardize, prioAliases, hsp, hop, List.all_cons]
      · simp [standardize, prioAliases, hsp, hop]
  · rintro ⟨hsp, hop⟩ h2 h3 h4
    rw [h1]
    simp [prioAliases, prioDefault, firstAvail, hsp, hop, h2, h3, h4]
  · intro hcl h2 h3 h4
    rw [h1]
    rcases hcl with hsp | hop
    · simp [prioAliases, prioDefault, firstAvail, hsp, h2, h4]
    · by_cases hsp : isSpiceStem t.stem
      · simp [prioAliases, prioDefault, firstAvail, hsp, h2, h4]
      · simp [prioAliases, prioDefault, firstAvail, hsp, hop, h3, h4]

/-! ## Claim C5 (amended): sources with only the required columns -/

/-- `any` over the standardized tables in terms of the raw tables. -/
theorem any_map_std (tables : List RawTable) (p : StdTable → Bool)
    (q : RawTable → Bool) (hpq : ∀ t, p (standardize t) = q t) :
    (tables.map standardize).any p = tables.any q := by
  induction tables with
  | nil => rfl
  | cons a l ih => simp [List.any_cons, hpq, ih]

/-- C5 amended: when every source carries only the required columns
(`Business Name`, `Address`) and none of the optional ones, `load_and_merge`
does not load: it fails with the missing-column error on `Phone` (the first
unprotected column access), instead of reporting the fields as absent. -/
theorem C5_missing_columns_error (tables : List RawTable) (hne : tables ≠ [])
    (h : ∀ t ∈ tables, t.hasPhone = false ∧ t.hasWebsite = false ∧
      t.hasEmail = false ∧ t.hasPostcode = false ∧ t.hasSpicePrio = false ∧
      t.hasOilPrio = false ∧ t.hasPrio = false ∧ t.hasContacted = false ∧
      t.hasContactDate = false ∧ t.hasContactNotes = false) :
    load_and_merge tables = Except.error "KeyError: Phone" := by
  have hie : tables.isEmpty = false := by
    cases tables with
    | nil => exact absurd rfl hne
    | cons a l => rfl
  have hphone : (combFlags (tables.map standardize)).phone = false := by
    show (tables.map standardize).any (fun u => u.hasPhone) = false
    rw [any_map_std tables _ (fun u => u.hasPhone) fun t => rfl]
    exact List.any_eq_false.mpr fun t ht => by simp [(h t ht).1]
  unfold load_and_merge
  rw [if_neg (show ¬tables.isEmpty = true by simp [hie]), if_pos hphone]

/-! ## Extraction lemmas for `load_and_merge` -/

theorem load_ok_cases {tables : List RawTable} {L : List Record}
    (h : load_and_merge tables = Except.ok L) :
    L = [] ∨
      L = mergePipeline (combFlags (tables.map standardize))
            (allRows (tables.map standardize)) := by
  unfold load_and_merge at h
  by_cases hie : tables.isEmpty
  · rw [if_pos hie] at h
    exact Or.inl (Except.ok.inj h).symm
  · rw [if_neg hie] at h
    split at h
    · exact Except.noConfusion h
    · split at h
      · exact Except.noConfusion h
      · split at h
        · exact Except.noConfusion h
        · split at h
          · exact Except.noConfusion h
          · split at h
            · exact Except.noConfusion h
            · exact Or.inr (Except.ok.inj h).symm

theorem mem_mergePipeline {f : CombFlags} {rows : List StdRow} {r : Record}
    (h : r ∈ mergePipeline f rows) : ∃ w ∈ rows, r = finalize f w := by
  unfold mergePipeline at h
  obtain ⟨w, hw, rfl⟩ := List.mem_map.mp h
  have h1 : w ∈ dedupBy fullKey [] (List.insertionSort sortRel rows) :=
    (dedupBy_sublist nameKey [] _).subset hw
  have h2 : w ∈ List.insertionSort sortRel rows :=
    (dedupBy_sublist fullKey [] _).subset h1
  exact ⟨w, (List.perm_insertionSort sortRel rows).mem_iff.mp h2, rfl⟩

theorem mem_allRows {stds : List StdTable} {w : StdRow} (h : w ∈ allRows stds) :
    ∃ st ∈ stds, w ∈ st.rows := by
  unfold allRows at h
  obtain ⟨l, hl, hw⟩ := List.mem_flatten.mp h
  obtain ⟨st, hst, rfl⟩ := List.mem_map.mp hl
  exact ⟨st, hst, hw⟩

/-! ## Claim C1: no duplicate identity keys or normalised names survive -/

/-- C1: in any successful merge result, no two retained records share the
identity key, and no two retained records share the normalised business name
(the second, name-only dedup pass). -/
theorem C1_distinct_identity (tables : List RawTable) (L : List Record)
    (h : load_and_merge tables = Except.ok L) :
    L.Pairwise (fun a b =>
      dedupe_key a.name a.address ≠ dedupe_key b.name b.address ∧
      normalize_business_name a.name ≠ normalize_business_name b.name) := by
  rcases load_ok_cases h with rfl | rfl
  · exact List.Pairwise.nil
  · unfold mergePipeline
    have hkey : (dedupBy nameKey []
        (dedupBy fullKey [] (List.insertionSort sortRel
          (allRows (tables.map standardize))))).Pairwise
        (fun a b => fullKey a ≠ fullKey b) :=
      List.Pairwise.sublist (dedupBy_sublist nameKey [] _)
        (dedupBy_pairwise fullKey [] _)
    have hname : (dedupBy nameKey []
        (dedupBy fullKey [] (List.insertionSort sortRel
          (allRows (tables.map standardize))))).Pairwise
        (fun a b => nameKey a ≠ nameKey b) := dedupBy_pairwise nameKey [] _
    exact List.pairwise_map.mpr ((hkey.and hname).imp fun hab => ⟨hab.1, hab.2⟩)

/-! ## Claim C7 (amended): contact-tracking fields of the output -/

/-- C7 amended: every output record comes from a row of some source, with the
contact-tracking fields determined on the concatenated frame, not per source:
when no source has the column the record carries `contacted = false` (resp.
the empty string); when some source has it, a record from a source with the
column carries that source's cell, and a record from a source without it
carries the absent marker `none` rather than the defaults. -/
theorem C7_contact_provenance (tables : List RawTable) (L : List Record)
    (h : load_and_merge tables = Except.ok L) :
    ∀ r ∈ L, ∃ t ∈ tables, ∃ w ∈ t.rows,
      r.name = w.name ∧
      r.contacted = (if tables.any (fun u => u.hasContacted) then
        (if t.hasContacted then w.contacted else none) else some false) ∧
      r.contactDate = (if tables.any (fun u => u.hasContactDate) then
        (if t.hasContactDate then w.contactDate else none) else some "") ∧
      r.contactNotes = (if tables.any (fun u => u.hasContactNotes) then
        (if t.hasContactNotes then w.contactNotes else none) else some "") := by
  intro r hr
  rcases load_ok_cases h with rfl | rfl
  · exact absurd hr (List.not_mem_nil r)
  · obtain ⟨w, hw, rfl⟩ := mem_mergePipeline hr
    obtain ⟨st, hst, hwst⟩ := mem_allRows hw
    obtain ⟨t, ht, rfl⟩ := List.mem_map.mp hst
    simp only [standardize, List.mem_map] at hwst
    obtain ⟨raw, hraw, rfl⟩ := hwst
    have hfc : (combFlags (tables.map standardize)).contacted =
        tables.any (fun u => u.hasContacted) :=
      any_map_std tables _ _ fun t => rfl
    have hfd : (combFlags (tables.map standardize)).contactDate =
        tables.any (fun u => u.hasContactDate) :=
      any_map_std tables _ _ fun t => rfl
    have hfn : (combFlags (tables.map standardize)).contactNotes =
        tables.any (fun u => u.hasContactNotes) :=
      any_map_std tables _ _ fun t => rfl
    refine ⟨t, ht, raw, hraw, rfl, ?_, ?_, ?_⟩
    · show (if (combFlags (tables.map standardize)).contacted then
          (stdRowOf t raw).contacted else some false) = _
      rw [hfc]
      rfl
    · show (if (combFlags (tables.map standardize)).contactDate then
          (stdRowOf t raw).contactDate else some "") = _
      rw [hfd]
      rfl
    · show (if (combFlags (tables.map standardize)).contactNotes then
          (stdRowOf t raw).contactNotes else some "") = _
      rw [hfn]
      rfl

/-! ## Claims C4 and C10: `update_contact_status` -/

/-- Fields of a matching row after the per-row update. -/
theorem updateRowCS_match_fields (n : String) (c : Bool) (date notes : String)
    (hC hD hN : Bool) (r : RawRow) (h : r.name = n) :
    (updateRowCS n c date notes hC hD hN r).contacted = some c ∧
    (updateRowCS n c date notes hC hD hN r).contactDate = some date ∧
    (updateRowCS n c date notes hC hD hN r).contactNotes = some notes := by
  simp [updateRowCS, rowMatch, h]

/-- Looking up a matching row through `update_contact_status`. -/
theorem update_lookup (n : String) (c : Bool) (notes : Option String)
    (today : String) (tables : List RawTable) (i j : Nat) (t : RawTable)
    (r : RawRow) (hti : tables[i]? = some t) (hrj : t.rows[j]? = some r)
    (hname : r.name = n) :
    ∃ t', (update_contact_status n c notes today tables).1[i]? = some t' ∧
      t'.rows[j]? = some (updateRowCS n c (if c then today else "")
        (notes.getD "") t.hasContacted t.hasContactDate t.hasContactNotes r) := by
  have hmatch : tableMatches n t = true := by
    refine List.any_eq_true.mpr ⟨r, List.getElem?_mem hrj, ?_⟩
    simp [rowMatch, hname]
  refine ⟨updateTableCS n c (if c then today else "") (notes.getD "") t, ?_, ?_⟩
  · show (tables.map (updateTableCS n c (if c then today else "")
      (notes.getD "")))[i]? = _
    rw [List.getElem?_map, hti]
    rfl
  · unfold updateTableCS
    rw [if_pos hmatch]
    show (t.rows.map _)[j]? = _
    rw [List.getElem?_map, hrj]
    rfl

/-- C4: the update visits every source: each source with at least one row
whose name equals the target has every such row's three contact fields set
(it does not stop at the first matching source), sources without a matching
row are returned unchanged, and the boolean result is true exactly when some
source had a matching row. -/
theorem C4_update_all_sources (n : String) (c : Bool) (notes : Option String)
    (today : String) (tables : List RawTable) :
    ((update_contact_status n c notes today tables).2 = true ↔
      ∃ t ∈ tables, ∃ r ∈ t.rows, r.name = n) ∧
    ∀ (i : Nat) (t : RawTable), tables[i]? = some t →
      ∃ t' : RawTable,
        (update_contact_status n c notes today tables).1[i]? = some t' ∧
        ((∀ r ∈ t.rows, r.name ≠ n) → t' = t) ∧
        ∀ (j : Nat) (r : RawRow), t.rows[j]? = some r → r.name = n →
          ∃ r' : RawRow, t'.rows[j]? = some r' ∧ r'.contacted = some c ∧
            r'.contactDate = some (if c then today else "") ∧
            r'.contactNotes = some (notes.getD "") := by
  constructor
  · show (tables.any (tableMatches n)) = true ↔ _
    simp [List.any_eq_true, tableMatches, rowMatch]
  · intro i t hti
    refine ⟨updateTableCS n c (if c then today else "") (notes.getD "") t, ?_, ?_, ?_⟩
    · show (tables.map (updateTableCS n c (if c then today else "")
        (notes.getD "")))[i]? = _
      rw [List.getElem?_map, hti]
      rfl
    · intro hno
      have hm : tableMatches n t = false :=
        List.any_eq_false.mpr fun r hr => by simp [rowMatch, hno r hr]
      simp [updateTableCS, hm]
    · intro j r hrj hname
      obtain ⟨t', ht', hrow⟩ :=
        update_lookup n c notes today tables i j t r hti hrj hname
      have heq : t' = updateTableCS n c (if c then today else "")
          (notes.getD "") t := by
        have : (update_contact_status n c notes today tables).1[i]? =
            some (updateTableCS n c (if c then today else "") (notes.getD "") t) := by
          show (tables.map (updateTableCS n c (if c then today else "")
            (notes.getD "")))[i]? = _
          rw [List.getElem?_map, hti]
          rfl
        rw [ht'] at this
        exact Option.some.inj this
      obtain ⟨h1, h2, h3⟩ := updateRowCS_match_fields n c (if c then today else "")
        (notes.getD "") t.hasContacted t.hasContactDate t.hasContactNotes r hname
      subst heq
      exact ⟨_, hrow, h1, h2, h3⟩

/-- C10: updates overwrite rather than merge: a call with empty or missing
notes erases previously stored notes (the matched row ends with empty
`Contact_Notes`), and a call with `contacted = false` erases any previously
recorded contact date. -/
theorem C10_overwrite_semantics (n : String) (c : Bool) (notes : Option String)
    (today : String) (tables : List RawTable) (i j : Nat) (t : RawTable)
    (r : RawRow) (hn : notes = none ∨ notes = some "")
    (hti : tables[i]? = some t) (hrj : t.rows[j]? = some r) (hname : r.name = n) :
    ∃ t' r', (update_contact_status n c notes today tables).1[i]? = some t' ∧
      t'.rows[j]? = some r' ∧ r'.contactNotes = some "" ∧
      (c = false → r'.contactDate = some "") := by
  obtain ⟨t', ht', hrow⟩ :=
    update_lookup n c notes today tables i j t r hti hrj hname
  obtain ⟨_, h2, h3⟩ := updateRowCS_match_fields n c (if c then today else "")
    (notes.getD "") t.hasContacted t.hasContactDate t.hasContactNotes r hname
  refine ⟨t', _, ht', hrow, ?_, ?_⟩
  · rw [h3]
    rcases hn with hn | hn <;> rw [hn] <;> rfl
  · intro hc
    rw [h2, hc]
    rfl

/-! ### Facts about the lexicographic name comparison -/

theorem charListLe_refl : ∀ l : List Char, charListLe l l = true := by
  intro l
  induction l with
  | nil => rfl
  | cons c cs ih => simp [charListLe, ih]

theorem charListLe_antisymm :
    ∀ a b : List Char, charListLe a b = true → charListLe b a = true → a = b := by
  intro a
  induction a with
  | nil =>
    intro b _ h2
    cases b with
    | nil => rfl
    | cons d ds => simp [charListLe] at h2
  | cons c cs ih =>
    intro b h1 h2
    cases b with
    | nil => simp [charListLe] at h1
    | cons d ds =>
      by_cases hcd : c = d
      · subst hcd
        rw [charListLe, if_pos rfl] at h1
        rw [charListLe, if_pos rfl] at h2
        rw [ih ds h1 h2]
      · rw [charListLe, if_neg hcd] at h1
        rw [charListLe, if_neg (fun h => hcd h.symm)] at h2
        have hlt1 : c < d := of_decide_eq_true h1
        have hlt2 : d < c := of_decide_eq_true h2
        exact absurd hlt1 (lt_asymm hlt2)

theorem strLeB_refl (a : String) : strLeB a a = true := charListLe_refl _

theorem strLeB_antisymm (a b : String) (h1 : strLeB a b = true)
    (h2 : strLeB b a = true) : a = b := by
  have h : a.toList = b.toList := charListLe_antisymm _ _ h1 h2
  calc a = a.toList.asString := (asString_toList a).symm
    _ = b.toList.asString := congrArg List.asString h
    _ = b := asString_toList b

/-! ## Claim C2: winner selection among two colliding rows -/

theorem c2_load (x y : RawRow) :
    load_and_merge [allCols x y] =
      Except.ok (mergePipeline allFlags [c2comb x, c2comb y]) := rfl

theorem dedupBy_cons_mem {α : Type} (k : α → String) (seen : List String)
    (r : α) (rs : List α) (h : k r ∈ seen) :
    dedupBy k seen (r :: rs) = dedupBy k seen rs := by
  rw [dedupBy, if_pos h]

theorem dedupBy_cons_not_mem {α : Type} (k : α → String) (seen : List String)
    (r : α) (rs : List α) (h : k r ∉ seen) :
    dedupBy k seen (r :: rs) = r :: dedupBy k (k r :: seen) rs := by
  rw [dedupBy, if_neg h]

theorem c2_dedup_pair (x y : StdRow) (hkey : fullKey y = fullKey x) :
    dedupBy nameKey [] (dedupBy fullKey [] [x, y]) = [x] := by
  have hd1 : dedupBy fullKey ([] : List String) [x, y] = [x] := by
    rw [dedupBy_cons_not_mem _ _ _ _ (List.not_mem_nil _),
      dedupBy_cons_mem _ _ _ _ (by rw [hkey]; exact List.mem_singleton.mpr rfl)]
    rfl
  rw [hd1, dedupBy_cons_not_mem _ _ _ _ (List.not_mem_nil _)]
  rfl

theorem c2_merge_pos (x y : StdRow) (h : sortRel x y)
    (hkey : fullKey y = fullKey x) :
    mergePipeline allFlags [x, y] = [finalize allFlags x] := by
  unfold mergePipeline
  have hsort : List.insertionSort sortRel [x, y] = [x, y] := by
    show List.orderedInsert sortRel x [y] = [x, y]
    simp only [List.orderedInsert]
    rw [if_pos h]
  rw [hsort, c2_dedup_pair x y hkey]
  rfl

theorem c2_merge_neg (x y : StdRow) (h : ¬sortRel x y)
    (hkey : fullKey x = fullKey y) :
    mergePipeline allFlags [x, y] = [finalize allFlags y] := by
  unfold mergePipeline
  have hsort : List.insertionSort sortRel [x, y] = [y, x] := by
    show List.orderedInsert sortRel x [y] = [y, x]
    simp only [List.orderedInsert]
    rw [if_neg h]
  rw [hsort, c2_dedup_pair y x hkey]
  rfl

/-- C2: for two rows colliding on the identity key, in both insertion orders
the retained record is the one with the strictly higher score; on a score
tie the smaller business name wins in both orders; and on a full tie of
score and name, the stable sort leaves insertion order in place, so the
record encountered first wins. -/
theorem C2_score_winner (a b : RawRow)
    (hkey : dedupe_key a.name a.address = dedupe_key b.name b.address) :
    (info_score (c2comb b) < info_score (c2comb a) →
      load_and_merge [allCols a b] = Except.ok [c2merged a] ∧
      load_and_merge [allCols b a] = Except.ok [c2merged a]) ∧
    (info_score (c2comb a) = info_score (c2comb b) →
      strLeB a.name b.name = true → a.name ≠ b.name →
      load_and_merge [allCols a b] = Except.ok [c2merged a] ∧
      load_and_merge [allCols b a] = Except.ok [c2merged a]) ∧
    (info_score (c2comb a) = info_score (c2comb b) → a.name = b.name →
      load_and_merge [allCols a b] = Except.ok [c2merged a] ∧
      load_and_merge [allCols b a] = Except.ok [c2merged b]) := by
  have hk : fullKey (c2comb b) = fullKey (c2comb a) := hkey.symm
  have hk' : fullKey (c2comb a) = fullKey (c2comb b) := hkey
  refine ⟨?_, ?_, ?_⟩
  · intro hsc
    have h1 : sortRel (c2comb a) (c2comb b) := Or.inl hsc
    have h2 : ¬sortRel (c2comb b) (c2comb a) := by
      rintro (h | ⟨he, _⟩)
      · omega
      · omega
    constructor
    · rw [c2_load a b, c2_merge_pos _ _ h1 hk]
      rfl
    · rw [c2_load b a, c2_merge_neg _ _ h2 hk]
      rfl
  · intro he hn hne
    have h1 : sortRel (c2comb a) (c2comb b) := Or.inr ⟨he, hn⟩
    have h2 : ¬sortRel (c2comb b) (c2comb a) := by
      rintro (h | ⟨hee, hle⟩)
      · omega
      · exact hne (strLeB_antisymm _ _ hn hle)
    constructor
    · rw [c2_load a b, c2_merge_pos _ _ h1 hk]
      rfl
    · rw [c2_load b a, c2_merge_neg _ _ h2 hk]
      rfl
  · intro he hn
    have hab : strLeB a.name b.name = true := by rw [hn]; exact strLeB_refl b.name
    have hba : strLeB b.name a.name = true := by rw [hn]; exact strLeB_refl b.name
    have h1 : sortRel (c2comb a) (c2comb b) := Or.inr ⟨he, hab⟩
    have h2 : sortRel (c2comb b) (c2comb a) := Or.inr ⟨he.symm, hba⟩
    constructor
    · rw [c2_load a b, c2_merge_pos _ _ h1 hk]
      rfl
    · rw [c2_load b a, c2_merge_pos _ _ h2 hk']
      rfl

/-! ## Counterexamples and witnesses on concrete sources -/

theorem except_ok_of_toOption {e : Except String (List Record)}
    {a : List Record} (h : e.toOption = some a) : e = Except.ok a := by
  cases e with
  | ok b =>
    simp only [Except.toOption, Option.some.injEq] at h
    rw [h]
  | error err => simp [Except.toOption] at h

/-- C5 counterexample: a collection whose only source has just the required
columns does not load without error: the merge fails with the missing-column
error on `Phone`. -/
theorem C5_missing_columns_cex :
    load_and_merge [cexBare] = Except.error "KeyError: Phone" := rfl

/-- Witness for the amended C5 at the concrete bare source. -/
theorem C5_missing_columns_witness :
    load_and_merge [cexBare] = Except.error "KeyError: Phone" :=
  C5_missing_columns_error [cexBare] (by decide) (by decide)

/-- C6 counterexample: with a spice-classified source lacking any
priority-like column (merged together with a general source so the load
succeeds), the spice record's priority is absent, not `LOW`. -/
theorem C6_priority_cex :
    (load_and_merge [cexSpice, cexGen]).toOption.map
        (fun L => L.map fun r => (r.name, r.priority)) =
      some [("aaa spicehouse", (none : Option String)), ("bbb", some "LOW")] ∧
    (none : Option String) ≠ some "LOW" :=
  ⟨by decide, by decide⟩

/-- Witness for the amended C6: the spice source without priority-like
columns gets no `LOW` default, and the spice source whose only priority-like
column is `Oil Priority` has that column left unmapped — its canonical
priority is the classification default `none` even though the cell holds
`HIGH`. -/
theorem C6_priority_witness :
    (stdRowOf cexSpice { name := "aaa spicehouse" }).priority = none ∧
    (stdRowOf cexSpiceOil { name := "ccc", oilPrio := some "HIGH" }).priority =
      firstAvail (prioAliases cexSpiceOil { name := "ccc", oilPrio := some "HIGH" })
        (prioDefault cexSpiceOil) ∧
    (stdRowOf cexSpiceOil { name := "ccc", oilPrio := some "HIGH" }).priority =
      none :=
  ⟨(C6_priority_mapping cexSpice { name := "aaa spicehouse" }).2.2.2
      (Or.inl (by decide)) rfl rfl rfl,
   (C6_priority_mapping cexSpiceOil { name := "ccc", oilPrio := some "HIGH" }).1,
   by decide⟩

/-- C7 counterexample: one source has a `Contacted` column and another does
not; the record from the source without it carries the absent marker `none`,
not `contacted = false` as the claim states. -/
theorem C7_contact_cex :
    (load_and_merge [cexCon, cexNoCon]).toOption.map
        (fun L => L.map fun r => (r.name, r.contacted)) =
      some [("aaa", (none : Option Bool)), ("bbb", some true)] ∧
    (none : Option Bool) ≠ some false :=
  ⟨by decide, by decide⟩

/-- Witness for the amended C7 at the concrete mixed sources. -/
theorem C7_contact_witness :
    ∃ t ∈ [cexCon, cexNoCon], ∃ w ∈ t.rows,
      c7recA.name = w.name ∧
      c7recA.contacted = (if [cexCon, cexNoCon].any (fun u => u.hasContacted) then
        (if t.hasContacted then w.contacted else none) else some false) ∧
      c7recA.contactDate = (if [cexCon, cexNoCon].any (fun u => u.hasContactDate) then
        (if t.hasContactDate then w.contactDate else none) else some "") ∧
      c7recA.contactNotes = (if [cexCon, cexNoCon].any (fun u => u.hasContactNotes) then
        (if t.hasContactNotes then w.contactNotes else none) else some "") :=
  C7_contact_provenance [cexCon, cexNoCon] c7L
    (except_ok_of_toOption (by decide)) c7recA (List.mem_cons_self _ _)

/-- Witness for C1 at the concrete mixed sources. -/
theorem C1_distinct_identity_witness :
    c7L.Pairwise (fun a b =>
      dedupe_key a.name a.address ≠ dedupe_key b.name b.address ∧
      normalize_business_name a.name ≠ normalize_business_name b.name) :=
  C1_distinct_identity [cexCon, cexNoCon] c7L (except_ok_of_toOption (by decide))

/-- Witness for C2: two concrete rows with the same identity key, where the
first has a phone and `HIGH` priority (score 3) and the second scores 0: the
first is retained in both insertion orders. -/
theorem C2_score_winner_witness :
    load_and_merge [allCols w2a w2b] = Except.ok [c2merged w2a] ∧
    load_and_merge [allCols w2b w2a] = Except.ok [c2merged w2a] :=
  (C2_score_winner w2a w2b (by decide)).1 (by decide)

/-- Witness for C4: updating the one matching source sets all three contact
fields of its matching row and reports success. -/
theorem C4_update_all_sources_witness :
    (update_contact_status "Spice Hut" true (some "called") "2026-01-02"
      [w4]).2 = true ∧
    ((update_contact_status "Spice Hut" true (some "called") "2026-01-02"
        [w4]).1[0]?.bind (fun t => t.rows[0]?)).map
      (fun r => (r.contacted, r.contactDate, r.contactNotes)) =
      some (some true, some "2026-01-02", some "called") := by
  have h := C4_update_all_sources "Spice Hut" true (some "called") "2026-01-02" [w4]
  refine ⟨?_, ?_⟩
  · exact h.1.mpr ⟨w4, List.mem_singleton.mpr rfl,
      ⟨{ name := "Spice Hut", contactDate := some "2020-01-01"
         contactNotes := some "old notes" }, List.mem_singleton.mpr rfl, rfl⟩⟩
  · obtain ⟨t', ht', _, hrow⟩ := h.2 0 w4 rfl
    obtain ⟨r', hr', h1, h2, h3⟩ := hrow 0 _ rfl rfl
    rw [ht']
    simp [hr', h1, h2, h3]

/-- Witness for C10: updating with no notes and `contacted = false` erases
the previously stored notes and date of the matching row. -/
theorem C10_overwrite_witness :
    ∃ t' r', (update_contact_status "Spice Hut" false none "2026-01-02"
        [w4]).1[0]? = some t' ∧
      t'.rows[0]? = some r' ∧ r'.contactNotes = some "" ∧
      (false = false → r'.contactDate = some "") :=
  C10_overwrite_semantics "Spice Hut" false none "2026-01-02" [w4] 0 0 w4
    { name := "Spice Hut", contactDate := some "2020-01-01"
      contactNotes := some "old notes" }
    (Or.inl rfl) rfl rfl rfl

end Evergreen
